import Mathlib

/- Shallow embedding of the krypton lexical analyser.

Source of truth: the Go packages
  pkg/krypton/lexer (state.go: the scanner state machine),
  the token package (token types, tables and predicates) and
  the file package (source positions).

Modelling conventions:
* The input is the already-decoded sequence of Unicode scalar values
  (a List Char); consequently the UTF-8 decode-failure branch and the
  stream-failure branch of readRune cannot arise in the model.  The
  byte-order-mark handling of readRune is modelled.
* Go's unicode.IsLetter, unicode.IsDigit are modelled on the ASCII
  range (letters A-Z a-z, digits 0-9) and unicode.IsSpace on the
  Latin-1 range; the sources only ever feed these predicates scalars,
  and every concrete statement below uses ASCII input.
* The token channel is modelled as the list of emitted tokens in
  emission order, and the synchronous error handler as the list of
  reported errors in report order; the Go counter Lexer.Errors is the
  length of that list.
* Go's string(r) for the eof sentinel rune -1 yields the replacement
  character U+FFFD; curString models this.
* Every scanning loop takes explicit fuel.  Running out of fuel sets
  the ghost flag Lexer.stuck and the main loop halts; with fuel larger
  than the number of steps the Go scanner takes on the input, the model
  computes exactly the Go behaviour.  The stuck flag exists only to
  make truncation observable; no Go counterpart.
* Token.synthetic is a ghost flag marking the two token synthesis
  sites (the automatically inserted semicolon of the newline case of
  lex, and the terminal end-of-stream token of NextToken); it has no Go
  counterpart and influences nothing the scanner does.
-/

/-- Position in the source, file package: `Pos struct { Line, Col int }`.
The Go fields are ints mutated in place; the model returns updated
copies, and uses Nat since the two mutators only ever increment. -/
structure Pos where
  line : Nat
  col : Nat
  deriving DecidableEq, Repr

/-- The origin position `Pos{1, 1}` (file package, `var Origin`). -/
def Origin : Pos := ⟨1, 1⟩

/-- `func (p *Pos) NextCharacter() { p.Col++ }`. -/
def Pos.NextCharacter (p : Pos) : Pos := { p with col := p.col + 1 }

/-- `func (p *Pos) NextLine() { p.Line++; p.Col = 1 }`. -/
def Pos.NextLine (p : Pos) : Pos := { line := p.line + 1, col := 1 }

/-- The position update performed by `Lexer.consume`: always
`NextCharacter`, then additionally `NextLine` when the consumed rune is
a newline (state.go lines 538-543). -/
def Pos.advance (p : Pos) (c : Option Char) : Pos :=
  let q := p.NextCharacter
  if c = some '\n' then q.NextLine else q

/-- Alias for the string type, used inside signatures of the `token`
namespace where the bare name `String` would refer to the token type
constant `token.String` below. -/
abbrev Str := String

/-- Token types, token package: `type Type uint8` with an iota
enumeration.  Modelled as Nat with one named constant per enumeration
value, in iota order. -/
abbrev token.Ty := Nat

def token.EOF : token.Ty := 0
def token.Illegal : token.Ty := 1
def token.Comment : token.Ty := 2
def token.literalBeg : token.Ty := 3
def token.Identifier : token.Ty := 4
def token.Number : token.Ty := 5
def token.Rune : token.Ty := 6
def token.String : token.Ty := 7
def token.literalEnd : token.Ty := 8
def token.operatorBeg : token.Ty := 9
def token.Plus : token.Ty := 10
def token.Minus : token.Ty := 11
def token.Star : token.Ty := 12
def token.Slash : token.Ty := 13
def token.Percent : token.Ty := 14
def token.Tilde : token.Ty := 15
def token.Amp : token.Ty := 16
def token.Bar : token.Ty := 17
def token.Caret : token.Ty := 18
def token.LessLess : token.Ty := 19
def token.MoreMore : token.Ty := 20
def token.PlusEqual : token.Ty := 21
def token.MinusEqual : token.Ty := 22
def token.StarEqual : token.Ty := 23
def token.SlashEqual : token.Ty := 24
def token.PercentEqual : token.Ty := 25
def token.AmpEqual : token.Ty := 26
def token.BarEqual : token.Ty := 27
def token.CaretEqual : token.Ty := 28
def token.LessLessEqual : token.Ty := 29
def token.MoreMoreEqual : token.Ty := 30
def token.EqualEqual : token.Ty := 31
def token.Less : token.Ty := 32
def token.More : token.Ty := 33
def token.Equal : token.Ty := 34
def token.Bang : token.Ty := 35
def token.BangEqual : token.Ty := 36
def token.LessEqual : token.Ty := 37
def token.MoreEqual : token.Ty := 38
def token.LeftParen : token.Ty := 39
def token.LeftBrack : token.Ty := 40
def token.LeftBrace : token.Ty := 41
def token.Comma : token.Ty := 42
def token.Period : token.Ty := 43
def token.RightParen : token.Ty := 44
def token.RightBrack : token.Ty := 45
def token.RightBrace : token.Ty := 46
def token.Semicolon : token.Ty := 47
def token.Colon : token.Ty := 48
def token.operatorEnd : token.Ty := 49
def token.keywordBeg : token.Ty := 50
def token.Underscore : token.Ty := 51
def token.For : token.Ty := 52
def token.If : token.Ty := 53
def token.Else : token.Ty := 54
def token.Let : token.Ty := 55
def token.Const : token.Ty := 56
def token.Func : token.Ty := 57
def token.Break : token.Ty := 58
def token.Continue : token.Ty := 59
def token.Return : token.Ty := 60
def token.Fall : token.Ty := 61
def token.TypeDec : token.Ty := 62
def token.Struct : token.Ty := 63
def token.Enum : token.Ty := 64
def token.Interface : token.Ty := 65
def token.Namespace : token.Ty := 66
def token.keywordEnd : token.Ty := 67

/-- `func (tok Type) IsLiteral() bool { return literalBeg < tok && tok < literalEnd }`. -/
def token.Ty.IsLiteral (tok : token.Ty) : Bool :=
  decide (token.literalBeg < tok) && decide (tok < token.literalEnd)

/-- `func (tok Type) IsOperator() bool { return operatorBeg < tok && tok < operatorEnd }`. -/
def token.Ty.IsOperator (tok : token.Ty) : Bool :=
  decide (token.operatorBeg < tok) && decide (tok < token.operatorEnd)

/-- `func (tok Type) IsKeyword() bool { return keywordBeg < tok && tok < keywordEnd }`. -/
def token.Ty.IsKeyword (tok : token.Ty) : Bool :=
  decide (token.keywordBeg < tok) && decide (tok < token.keywordEnd)

/-- The contents of the Go map `stringToType`, which the package init
loop builds from the typeToString array by inserting every entry whose
literal string is nonempty (token package init).  Listed in array
order. -/
def token.table : List (Str × token.Ty) := [
  (":EOF:", token.EOF), (":ILLEGAL:", token.Illegal), (":COMMENT:", token.Comment),
  (":IDENT:", token.Identifier), (":NUMBER:", token.Number),
  (":RUNE:", token.Rune), (":STRING:", token.String),
  ("+", token.Plus), ("-", token.Minus), ("*", token.Star),
  ("/", token.Slash), ("%", token.Percent),
  ("~", token.Tilde), ("&", token.Amp), ("|", token.Bar), ("^", token.Caret),
  ("<<", token.LessLess), (">>", token.MoreMore),
  ("+=", token.PlusEqual), ("-=", token.MinusEqual), ("*=", token.StarEqual),
  ("/=", token.SlashEqual), ("%=", token.PercentEqual),
  ("&=", token.AmpEqual), ("|=", token.BarEqual), ("^=", token.CaretEqual),
  ("<<=", token.LessLessEqual), (">>=", token.MoreMoreEqual),
  ("==", token.EqualEqual), ("<", token.Less), (">", token.More),
  ("=", token.Equal), ("!", token.Bang),
  ("!=", token.BangEqual), ("<=", token.LessEqual), (">=", token.MoreEqual),
  ("(", token.LeftParen), ("[", token.LeftBrack), ("\x7b", token.LeftBrace),
  (",", token.Comma), (".", token.Period),
  (")", token.RightParen), ("]", token.RightBrack), ("\x7d", token.RightBrace),
  (";", token.Semicolon), (":", token.Colon),
  ("_", token.Underscore),
  ("for", token.For), ("if", token.If), ("else", token.Else),
  ("let", token.Let), ("const", token.Const), ("func", token.Func),
  ("break", token.Break), ("continue", token.Continue), ("return", token.Return),
  ("fallthrough", token.Fall),
  ("type", token.TypeDec), ("struct", token.Struct), ("enum", token.Enum),
  ("interface", token.Interface), ("namespace", token.Namespace)]

/-- Lookup in the `stringToType` map; `none` models a missing key. -/
def token.stringToType (s : Str) : Option token.Ty :=
  (token.table.find? (fun p => p.1 = s)).map (fun p => p.2)

/-- `func NewTokenType(str string) Type`: map lookup discarding the ok
flag, so a missing key yields the zero value EOF. -/
def token.NewTokenType (s : Str) : token.Ty :=
  (token.stringToType s).getD token.EOF

/-- `func IsOperator(s string) bool { return NewTokenType(s).IsOperator() }`. -/
def token.IsOperator (s : Str) : Bool :=
  (token.NewTokenType s).IsOperator

/-- `func Lookup(name string) Type`: the keyword table lookup used for
identifiers. -/
def token.Lookup (name : Str) : token.Ty :=
  match token.stringToType name with
  | some tok => if tok.IsKeyword then tok else token.Identifier
  | none => token.Identifier

/-- `func IsDigit(r rune, base int) bool` (token package). -/
def token.IsDigit (r : Char) (base : Nat) : Bool :=
  if r == 'A' || r == 'B' || r == 'C' || r == 'D' || r == 'E' || r == 'F'
      || r == 'a' || r == 'b' || r == 'c' || r == 'd' || r == 'e' || r == 'f' then
    base == 16
  else if r == '8' || r == '9' then decide (10 ≤ base)
  else if r == '2' || r == '3' || r == '4' || r == '5' || r == '6' || r == '7' then
    decide (8 ≤ base)
  else if r == '0' || r == '1' then true
  else false

/-- `func (tok Type) InsertSemiAfter() bool` (token package): true for
every literal and for the keyword/operator types that can end a
statement. -/
def token.Ty.InsertSemiAfter (tok : token.Ty) : Bool :=
  if tok.IsLiteral then true
  else if tok = token.RightParen ∨ tok = token.RightBrack ∨ tok = token.RightBrace
      ∨ tok = token.Break ∨ tok = token.Continue ∨ tok = token.Return then true
  else false

/-- Go `unicode.IsLetter`, restricted to the ASCII letters. -/
def isLetter (c : Char) : Bool := c.isAlpha

/-- Go `unicode.IsDigit`, restricted to the ASCII decimal digits. -/
def isDigit (c : Char) : Bool := c.isDigit

/-- Go `unicode.IsSpace` on the Latin-1 range: space, tab, newline,
vertical tab, form feed, carriage return, next line, no-break space. -/
def isSpace (c : Char) : Bool :=
  c == ' ' || c == '\t' || c == '\n' || c == '\x0b' || c == '\x0c' || c == '\r'
  || c == Char.ofNat 0x85 || c == Char.ofNat 0xA0

/-- The byte order mark rune (state.go `bom = 0xFEFF`). -/
def bomChar : Char := Char.ofNat 0xFEFF

/-- The replacement character U+FFFD, which Go's `string(r)` produces
for the invalid rune -1 used as the eof sentinel. -/
def fffd : Char := Char.ofNat 0xFFFD

/-- Go's `string(lexer.current)`: the one-rune string, except that the
eof sentinel (modelled as `none`) stringifies to U+FFFD. -/
def curString (c : Option Char) : String :=
  match c with
  | some c => String.mk [c]
  | none => String.mk [fffd]

/-- The error conditions the lexer reports, one constructor per
`fmt.Errorf` site in state.go, carrying the data interpolated into the
Go message. -/
inductive ErrKind where
  | illegalBOM
  | unclosedRuneLit
  | emptyRuneLiteral
  | tooManyRuneChars
  | unclosedStringLit
  | expectedDigits (base : Nat) (found : Option Char)
  | hexExponent (found : Option Char)
  | illegalEscape (found : Option Char)
  | escapeDigits (pfx : String) (count : Nat)
  | invalidCodepoint (pfx : String) (digitsRead : String)
  | unexpectedRune (c : Char)
  deriving DecidableEq, Repr

/-- The lexer `Error struct { pos file.Pos; err error }` delivered to
the error handler. -/
structure LexError where
  pos : Pos
  err : ErrKind
  deriving DecidableEq, Repr

/-- `Token struct { Type; Literal string; file.Pos }` (token package).
`synthetic` is the ghost instrumentation flag described in the header
comment; it is not part of the Go struct. -/
structure Token where
  type : token.Ty
  literal : String
  pos : Pos
  synthetic : Bool
  deriving DecidableEq, Repr

/-- The scanner state (`Lexer struct` of state.go).  `rest` is the
unread portion of the source; `tokens` is the history of the token
channel; `errors` is the history of error-handler invocations (Go's
counter `Errors` is its length); `stuck` is the ghost
fuel-exhaustion flag described in the header comment. -/
structure Lexer where
  current : Option Char
  rest : List Char
  closed : Bool
  errors : List LexError
  insertSemi : Bool
  tokenStart : Pos
  tokenEnd : Pos
  tokenLiteral : String
  tokens : List Token
  stuck : Bool
  deriving DecidableEq, Repr

/-- The Go error counter `Lexer.Errors`. -/
def Lexer.ErrorsCount (s : Lexer) : Nat := s.errors.length

/-- `func (lexer *Lexer) HasErrors() bool { return lexer.Errors > 0 }`. -/
def Lexer.HasErrors (s : Lexer) : Bool := decide (0 < s.errors.length)

/-- `raiseAt`: count the error and invoke the handler (modelled by
appending to the report history). -/
def raiseAt (s : Lexer) (p : Pos) (e : ErrKind) : Lexer :=
  { s with errors := s.errors ++ [⟨p, e⟩] }

/-- `raise`: report at the current token end position. -/
def raise (s : Lexer) (e : ErrKind) : Lexer := raiseAt s s.tokenEnd e

/-- `raiseAtTop`: report at the current token start position. -/
def raiseAtTop (s : Lexer) (e : ErrKind) : Lexer := raiseAt s s.tokenStart e

/-- The rune-reading loop of `readRune` on decoded input: skip a byte
order mark silently when it is the first rune, report it otherwise,
and return the next rune or the eof sentinel.  Returns the new current
rune, the remaining input and the errors reported while reading. -/
def readRuneAux (p : Pos) : Bool → List Char → Option Char × List Char × List LexError
  | _, [] => (none, [], [])
  | first, c :: rest =>
    if c = bomChar then
      let r := readRuneAux p false rest
      (r.1, r.2.1, (if first then [] else [⟨p, ErrKind.illegalBOM⟩]) ++ r.2.2)
    else (some c, rest, [])

/-- `func (lexer *Lexer) readRune(first bool) rune`, including the
early return of the eof sentinel when the stream is closed (which
reads nothing and reports nothing). -/
def readRune (first : Bool) (s : Lexer) : Lexer :=
  let r := if s.closed then (none, s.rest, []) else readRuneAux s.tokenEnd first s.rest
  { s with current := r.1, rest := r.2.1, errors := s.errors ++ r.2.2 }

/-- `func (lexer *Lexer) consume()`: append the current rune to the
token literal, advance the end position, read the next rune. -/
def consume (s : Lexer) : Lexer :=
  readRune false
    { s with
      tokenLiteral := s.tokenLiteral ++ curString s.current,
      tokenEnd := s.tokenEnd.advance s.current }

/-- `func (lexer *Lexer) discard()`: drop the pending literal buffer
and close the position window. -/
def Lexer.discard (s : Lexer) : Lexer :=
  { s with tokenLiteral := "", tokenStart := s.tokenEnd }

/-- `func (lexer *Lexer) emit(tokenType token.Type)`: update the
semicolon-insertion flag (comments excepted), send the token, discard.
`syn` is the ghost synthesis marker stored on the emitted token; the
scanner itself never reads it. -/
def emitAux (syn : Bool) (tokenType : token.Ty) (s : Lexer) : Lexer :=
  Lexer.discard { s with
    insertSemi :=
      if tokenType ≠ token.Comment then tokenType.InsertSemiAfter else s.insertSemi,
    tokens := s.tokens ++ [⟨tokenType, s.tokenLiteral, s.tokenStart, syn⟩] }

/-- `emit` as called from every scanning mode (never a synthesis site). -/
def emit (tokenType : token.Ty) (s : Lexer) : Lexer := emitAux false tokenType s

/-- `func (lexer *Lexer) close()`. -/
def close (s : Lexer) : Lexer :=
  if s.closed then s else { s with current := none, closed := true }

/-- `func (lexer *Lexer) NextToken() token.Token` in the closed state:
the terminal end-of-stream token, a pure function of the state, hence
identical on every subsequent call.  Marked synthetic (ghost flag). -/
def NextTokenAfterClose (s : Lexer) : Token :=
  { type := token.EOF, literal := "", pos := s.tokenStart, synthetic := true }

/-- `func (lexer *Lexer) consumeIdentifier()`: consume the maximal run
of letters, decimal digits and underscores. -/
def consumeIdentifier : Nat → Lexer → Lexer
  | 0, s => { s with stuck := true }
  | fuel + 1, s =>
    match s.current with
    | some c =>
      if isLetter c || isDigit c || c == '_' then consumeIdentifier fuel (consume s)
      else s
    | none => s

/-- `func (lexer *Lexer) lexIdentifier()`: consume, then emit the
keyword-table lookup of the consumed literal. -/
def lexIdentifier (fuel : Nat) (s : Lexer) : Lexer :=
  let s := consumeIdentifier fuel s
  emit (token.Lookup s.tokenLiteral) s

/-- The consumption loop of `consumeDigits`. -/
def consumeDigitsLoop (base : Nat) : Nat → Lexer → Lexer
  | 0, s => { s with stuck := true }
  | fuel + 1, s =>
    match s.current with
    | some c =>
      if token.IsDigit c base then consumeDigitsLoop base fuel (consume s) else s
    | none => s

/-- `func (lexer *Lexer) consumeDigits(base int, required bool)`: raise
when digits are required but the current rune is not a digit of the
base (the eof sentinel never is), then consume all such digits. -/
def consumeDigits (fuel base : Nat) (required : Bool) (s : Lexer) : Lexer :=
  let isD := match s.current with | some c => token.IsDigit c base | none => false
  let s :=
    if !isD && required then raise s (ErrKind.expectedDigits base s.current)
    else s
  consumeDigitsLoop base fuel s

/-- The exponent tail of `lexNumber`: consume the indicator, an
optional sign, then required decimal digits, and emit the number. -/
def lexExponent (fuel : Nat) (s : Lexer) : Lexer :=
  let s := consume s
  let s := if s.current = some '+' ∨ s.current = some '-' then consume s else s
  emit token.Number (consumeDigits fuel 10 true s)

/-- `lexNumber` from the `lexingNumberBase` label on: integer digits,
bases below 10 finish immediately, an optional fraction, and the
exponent switch (hex indicators in decimal literals raise a warning
but are still lexed).  Every path ends in the deferred
`emit(token.Number)`. -/
def lexNumberAfterBase (fuel base : Nat) (cantBe0 : Bool) (s : Lexer) : Lexer :=
  let s := consumeDigits fuel base cantBe0 s
  if base < 10 then emit token.Number s
  else
    let s := if s.current = some '.' then consumeDigits fuel base true (consume s) else s
    match s.current with
    | some c =>
      if (base = 16 ∧ c.toLower = 'p') ∨ (base = 10 ∧ c.toLower = 'e') then
        lexExponent fuel s
      else if base = 10 ∧ c.toLower = 'p' then
        lexExponent fuel (raise s (ErrKind.hexExponent (some c)))
      else emit token.Number s
    | none => emit token.Number s

/-- `func (lexer *Lexer) lexNumber()`: determine the base from a
leading zero and its optional prefix rune, then scan the rest. -/
def lexNumber (fuel : Nat) (s : Lexer) : Lexer :=
  if s.current = some '0' then
    let s := consume s
    match s.current with
    | some c =>
      if c = 'x' ∨ c = 'X' then lexNumberAfterBase fuel 16 true (consume s)
      else if c = 'o' ∨ c = 'O' then lexNumberAfterBase fuel 8 true (consume s)
      else if c = 'b' ∨ c = 'B' then lexNumberAfterBase fuel 2 true (consume s)
      else lexNumberAfterBase fuel 8 false s
    | none => lexNumberAfterBase fuel 8 false s
  else lexNumberAfterBase fuel 10 false s

/-- Value of one hexadecimal digit. -/
def hexVal (c : Char) : Nat :=
  if c.isDigit then c.toNat - '0'.toNat
  else if 'a' ≤ c ∧ c ≤ 'f' then c.toNat - 'a'.toNat + 10
  else if 'A' ≤ c ∧ c ≤ 'F' then c.toNat - 'A'.toNat + 10
  else 0

/-- Value of a string of hexadecimal digits, as read by
`strconv.ParseInt(hexDigits, 16, 32)` before its range check. -/
def hexValue (s : String) : Nat := s.data.foldl (fun n c => 16 * n + hexVal c) 0

/-- `utf8.ValidRune` on the nonnegative range: not a surrogate and at
most U+10FFFF. -/
def ValidRune (r : Nat) : Bool :=
  decide (r < 0xD800) || (decide (0xDFFF < r) && decide (r ≤ 0x10FFFF))

/-- The hex-digit loop of `consumeEscape`: read the required number of
hexadecimal digits, aborting the escape with an error when one is
missing; afterwards validate the codepoint, where the int32 clamp of
`strconv.ParseInt` on overflow is modelled explicitly. -/
def consumeHexLoop (pfx : String) (total : Nat) : Nat → String → Lexer → Lexer
  | 0, acc, s =>
    let v := hexValue acc
    let r := if 0x7FFFFFFF < v then 0x7FFFFFFF else v
    if ValidRune r then s else raise s (ErrKind.invalidCodepoint pfx acc)
  | n + 1, acc, s =>
    match s.current with
    | some c =>
      if token.IsDigit c 16 then
        consumeHexLoop pfx total n (acc ++ String.mk [c]) (consume s)
      else raise s (ErrKind.escapeDigits pfx total)
    | none => raise s (ErrKind.escapeDigits pfx total)

/-- `func (lexer *Lexer) consumeEscape(quote rune)`: consume the
backslash, classify the escape selector (recording its string form as
the prefix before the switch, exactly as Go does), raise on an illegal
selector, consume the selector even then, and read hex digits when the
selector requires them. -/
def consumeEscape (quote : Char) (s : Lexer) : Lexer :=
  let s := consume s
  let pfx := curString s.current
  let di : Nat × Bool :=
    match s.current with
    | some c =>
      if c = quote ∨ c = '\\' ∨ c = 'v' ∨ c = 't' ∨ c = 'r' ∨ c = 'n'
          ∨ c = 'f' ∨ c = 'b' ∨ c = 'a' then (0, false)
      else if c = 'x' then (2, false)
      else if c = 'u' then (4, false)
      else if c = 'U' then (8, false)
      else (0, true)
    | none => (0, true)
  let s := if di.2 then raise s (ErrKind.illegalEscape s.current) else s
  let s := consume s
  if 0 < di.1 then consumeHexLoop pfx di.1 di.1 "" s else s

/-- `func (lexer *Lexer) consumeRune(quote rune)`: an escape sequence
after a backslash, a single rune otherwise. -/
def consumeRune (quote : Char) (s : Lexer) : Lexer :=
  if s.current = some '\\' then consumeEscape quote s else consume s

/-- The scanning loop of `lexRune`: until the closing single quote,
raising the unterminated error at a newline or at end of stream
(returning `none`), counting the characters consumed. -/
def lexRuneLoop : Nat → Nat → Lexer → Lexer × Option Nat
  | 0, _, s => ({ s with stuck := true }, none)
  | fuel + 1, count, s =>
    match s.current with
    | none => (raise s ErrKind.unclosedRuneLit, none)
    | some c =>
      if c = '\'' then (s, some count)
      else if c = '\n' then (raise s ErrKind.unclosedRuneLit, none)
      else lexRuneLoop fuel (count + 1) (consumeRune '\'' s)

/-- `func (lexer *Lexer) lexRune()`: consume the opening quote, scan
to the closing quote (aborting without emitting when unterminated),
consume the closing quote, report empty or overlong literals at the
token start position, and emit the rune token. -/
def lexRune (fuel : Nat) (s : Lexer) : Lexer :=
  let s := consume s
  match lexRuneLoop fuel 0 s with
  | (s, none) => s
  | (s, some count) =>
    let s := consume s
    let s :=
      if 1 < count then raiseAtTop s ErrKind.tooManyRuneChars
      else if count < 1 then raiseAtTop s ErrKind.emptyRuneLiteral
      else s
    emit token.Rune s

/-- The scanning loop of `lexString`, identical to the rune loop but
without a count; the Bool reports whether the closing quote was
reached. -/
def lexStringLoop : Nat → Lexer → Lexer × Bool
  | 0, s => ({ s with stuck := true }, false)
  | fuel + 1, s =>
    match s.current with
    | none => (raise s ErrKind.unclosedStringLit, false)
    | some c =>
      if c = '"' then (s, true)
      else if c = '\n' then (raise s ErrKind.unclosedStringLit, false)
      else lexStringLoop fuel (consumeRune '"' s)

/-- `func (lexer *Lexer) lexString()`: consume the opening quote, scan
to the closing quote (aborting without emitting when unterminated),
consume the closing quote and emit the string token. -/
def lexString (fuel : Nat) (s : Lexer) : Lexer :=
  let s := consume s
  match lexStringLoop fuel s with
  | (s, false) => s
  | (s, true) => emit token.String (consume s)

/-- The greedy loop of `lexOperator`: extend the literal while the
extension is still a recognised operator. -/
def lexOperatorLoop : Nat → Lexer → Lexer
  | 0, s => { s with stuck := true }
  | fuel + 1, s =>
    if token.IsOperator (s.tokenLiteral ++ curString s.current) then
      lexOperatorLoop fuel (consume s)
    else s

/-- `func (lexer *Lexer) lexOperator()`. -/
def lexOperator (fuel : Nat) (s : Lexer) : Lexer :=
  let s := lexOperatorLoop fuel s
  emit (token.NewTokenType s.tokenLiteral) s

/-- The consumption loop of `lexComment`: consume to end of line or
end of stream. -/
def lexCommentLoop : Nat → Lexer → Lexer
  | 0, s => { s with stuck := true }
  | fuel + 1, s =>
    match s.current with
    | some c => if c = '\n' then s else lexCommentLoop fuel (consume s)
    | none => s

/-- `func (lexer *Lexer) lexComment()`. -/
def lexComment (fuel : Nat) (s : Lexer) : Lexer :=
  emit token.Comment (lexCommentLoop fuel s)

/-- The consumption loop of `discardWhitespace`. -/
def discardWhitespaceLoop : Nat → Lexer → Lexer
  | 0, s => { s with stuck := true }
  | fuel + 1, s =>
    match s.current with
    | some c => if isSpace c then discardWhitespaceLoop fuel (consume s) else s
    | none => s

/-- `func (lexer *Lexer) discardWhitespace()`: consume all adjacent
whitespace, then discard it. -/
def discardWhitespace (fuel : Nat) (s : Lexer) : Lexer :=
  Lexer.discard (discardWhitespaceLoop fuel s)

/-- One arm of the dispatch switch of `func (lexer *Lexer) lex()`, for
a non-eof current rune `c`, in the source's case order (the eof case,
which none of the earlier predicates can match, is handled by the
caller). -/
def lexDispatch (fuel : Nat) (c : Char) (s : Lexer) : Lexer :=
  if isLetter c then lexIdentifier fuel s
  else if c = '_' then emit token.Underscore (consume s)
  else if c = '\\' then emit token.Identifier (consume (consumeIdentifier fuel (consume s)))
  else if isDigit c then lexNumber fuel s
  else if c = '\'' then lexRune fuel s
  else if c = '"' then lexString fuel s
  else if token.IsOperator (String.mk [c]) then lexOperator fuel s
  else if c = '#' then lexComment fuel s
  else if c = '\n' then
    if s.insertSemi then emitAux true token.Semicolon s
    else discardWhitespace fuel s
  else if isSpace c then discardWhitespace fuel s
  else emit token.Illegal (consume (raise s (ErrKind.unexpectedRune c)))

/-- The main lexing loop `func (lexer *Lexer) lex()`: dispatch on the
current rune until end of stream closes the stream and halts, bounded
by fuel (see the header comment on `stuck`). -/
def lex : Nat → Lexer → Lexer
  | 0, s => { s with stuck := true }
  | fuel + 1, s =>
    if s.stuck then s
    else
      match s.current with
      | none => close s
      | some c => lex fuel (lexDispatch fuel c s)

/-- `func Lex(source io.Reader, handler ErrorHandler) *Lexer`: the
initial state with both position cursors at the origin and the first
rune pre-read with the first-rune flag set. -/
def LexStart (input : List Char) : Lexer :=
  readRune true
    { current := none, rest := input, closed := false, errors := [],
      insertSemi := false, tokenStart := Origin, tokenEnd := Origin,
      tokenLiteral := "", tokens := [], stuck := false }

/-- A complete scan of the input with the given fuel. -/
def run (input : List Char) (fuel : Nat) : Lexer := lex fuel (LexStart input)

/-- Lexicographic order on source positions: `p` is at or before `q`. -/
def Pos.le (p q : Pos) : Prop :=
  p.line < q.line ∨ (p.line = q.line ∧ p.col ≤ q.col)

/-- Both components of the position are at least 1. -/
def Pos.ge1 (p : Pos) : Prop := 1 ≤ p.line ∧ 1 ≤ p.col

/-- The error report history of `t` extends that of `s`: errors are
only ever appended. -/
def ErrExt (s t : Lexer) : Prop := ∃ u, t.errors = s.errors ++ u

/-- Every synthetic token emitted so far has an empty literal. -/
def cleanSyn (s : Lexer) : Prop :=
  ∀ tok ∈ s.tokens, tok.synthetic = true → tok.literal = ""

/-- The position invariant of a scan: both cursors are at least (1,1)
with the start cursor not past the end cursor, every emitted token
starts at or before the start cursor with components at least 1, and
emitted token positions are non-decreasing in emission order. -/
def posInv (s : Lexer) : Prop :=
  s.tokenStart.ge1 ∧ s.tokenEnd.ge1 ∧ Pos.le s.tokenStart s.tokenEnd ∧
  (∀ tok ∈ s.tokens, Pos.le tok.pos s.tokenStart ∧ tok.pos.ge1) ∧
  List.Pairwise (fun a b => Pos.le a.pos b.pos) s.tokens

/-- The bundle of facts relating a scanner state to a later state of
the same scan: errors are only appended, the position invariant is
preserved, and synthetic-token cleanliness is preserved.  Every
scanner operation except the semicolon-insertion emission satisfies
this relation. -/
def Step (s t : Lexer) : Prop :=
  ErrExt s t ∧ (posInv s → posInv t) ∧ (cleanSyn s → cleanSyn t)

/-- The `InsertSemiAfter` decision, as a proposition: true exactly for
the literal band and the six statement-ending keyword/operator types. -/
theorem insertSemiAfter_iff (t : token.Ty) :
    t.InsertSemiAfter = true ↔
      (t.IsLiteral = true ∨ t = token.RightParen ∨ t = token.RightBrack
        ∨ t = token.RightBrace ∨ t = token.Break ∨ t = token.Continue
        ∨ t = token.Return) := by
  unfold token.Ty.InsertSemiAfter
  split
  next h => simp [h]
  next h =>
    split
    next h2 => simp [h]; tauto
    next h2 => simp [h]; tauto

/-- C4: for the input "0x" the engine emits exactly one number token
(with literal "0x"), the error history is exactly one
expected-digits-of-base-16 report, the counter ends at 1, the scan
closes, and only the terminal end-of-stream token follows. -/
theorem c4_hex_prefix_no_digits :
    (run ['0', 'x'] 8).tokens = [⟨token.Number, "0x", ⟨1, 1⟩, false⟩] ∧
    (run ['0', 'x'] 8).errors = [⟨⟨1, 3⟩, ErrKind.expectedDigits 16 none⟩] ∧
    (run ['0', 'x'] 8).ErrorsCount = 1 ∧
    (run ['0', 'x'] 8).closed = true ∧
    NextTokenAfterClose (run ['0', 'x'] 8) = ⟨token.EOF, "", ⟨1, 3⟩, true⟩ := by
  decide

/-- C6: for the input "'ab'" the engine reports exactly one
too-many-characters error, positioned at (1,1) — the start of the
literal, i.e. the opening quote — rather than at the scan position
(1,5) where the condition was detected, and a rune token is still
emitted. -/
theorem c6_too_many_rune_chars :
    (run ['\'', 'a', 'b', '\''] 10).errors = [⟨⟨1, 1⟩, ErrKind.tooManyRuneChars⟩] ∧
    (run ['\'', 'a', 'b', '\''] 10).ErrorsCount = 1 ∧
    (run ['\'', 'a', 'b', '\''] 10).tokens = [⟨token.Rune, "'ab'", ⟨1, 1⟩, false⟩] ∧
    (run ['\'', 'a', 'b', '\''] 10).tokenEnd = ⟨1, 5⟩ ∧
    (⟨1, 1⟩ : Pos) ≠ ⟨1, 5⟩ := by
  decide

/-- C7: a string literal left open at end of stream reports exactly
one unterminated-string error, emits no token at all, and the scan
still closes cleanly, after which NextToken yields the terminal
end-of-stream token. -/
theorem c7_unterminated_string :
    (run ['"', 'u', 'n', 't', 'e', 'r', 'm', 'i', 'n', 'a', 't', 'e', 'd'] 20).errors
      = [⟨⟨1, 14⟩, ErrKind.unclosedStringLit⟩] ∧
    (run ['"', 'u', 'n', 't', 'e', 'r', 'm', 'i', 'n', 'a', 't', 'e', 'd'] 20).tokens = [] ∧
    (run ['"', 'u', 'n', 't', 'e', 'r', 'm', 'i', 'n', 'a', 't', 'e', 'd'] 20).closed = true ∧
    NextTokenAfterClose (run ['"', 'u', 'n', 't', 'e', 'r', 'm', 'i', 'n', 'a', 't', 'e', 'd'] 20)
      = ⟨token.EOF, "", ⟨1, 1⟩, true⟩ := by
  decide

/-- C8: the escape backslash-u-0041 inside a string literal raises no
error, while backslash-u-D800 (a surrogate) raises exactly one
invalid-codepoint error; in both cases the string token is still
emitted and the scan completes. -/
theorem c8_unicode_escape_validation :
    (run ['"', '\\', 'u', '0', '0', '4', '1', '"'] 14).errors = [] ∧
    (run ['"', '\\', 'u', '0', '0', '4', '1', '"'] 14).tokens
      = [⟨token.String, "\"\\u0041\"", ⟨1, 1⟩, false⟩] ∧
    (run ['"', '\\', 'u', 'D', '8', '0', '0', '"'] 14).errors
      = [⟨⟨1, 8⟩, ErrKind.invalidCodepoint "u" "D800"⟩] ∧
    (run ['"', '\\', 'u', 'D', '8', '0', '0', '"'] 14).tokens
      = [⟨token.String, "\"\\uD800\"", ⟨1, 1⟩, false⟩] ∧
    (run ['"', '\\', 'u', 'D', '8', '0', '0', '"'] 14).closed = true := by
  decide

/-- C9: the input "08" splits into a number token "0" followed by a
number token "8" with no error reported — the lone zero is treated as
octal and requires no further digits, and '8', not being an octal
digit, starts a fresh decimal number. -/
theorem c9_leading_zero_then_eight :
    (run ['0', '8'] 8).tokens
      = [⟨token.Number, "0", ⟨1, 1⟩, false⟩, ⟨token.Number, "8", ⟨1, 2⟩, false⟩] ∧
    (run ['0', '8'] 8).errors = [] := by
  decide

/-- C1 counterexample: the claim that every synthetic token has an
empty literal fails on the input a-quote-b-newline.  The unterminated
string literal aborts without discarding the pending buffer, and the
automatically inserted semicolon that follows is emitted with the
leaked literal, which is nonempty. -/
theorem c1_counterexample :
    ¬ (∀ (input : List Char) (fuel : Nat) (tok : Token),
        tok ∈ (run input fuel).tokens → tok.synthetic = true → tok.literal = "") := by
  intro h
  have hmem : (⟨token.Semicolon, "\"b", ⟨1, 2⟩, true⟩ : Token)
      ∈ (run ['a', '"', 'b', '\n'] 12).tokens := by decide
  have := h ['a', '"', 'b', '\n'] 12 _ hmem rfl
  exact absurd this (by decide)

/-- C3 counterexample: the claim that an underscore token is emitted
only when the following scalar is not a letter, digit or underscore
fails on the input underscore-a: the dispatch case for '_' does not
look ahead ('_' is not a letter, so no earlier case intercepts it),
and an underscore token at (1,1) is emitted although 'a' follows. -/
theorem c3_counterexample :
    ¬ (∀ (c : Char) (rest : List Char) (fuel : Nat),
        (isLetter c || isDigit c || c == '_') = true →
        ∀ tok ∈ (run ('_' :: c :: rest) fuel).tokens,
          tok.pos = ⟨1, 1⟩ → tok.type ≠ token.Underscore) := by
  intro h
  exact h 'a' [] 10 (by decide) ⟨token.Underscore, "_", ⟨1, 1⟩, false⟩ (by decide) rfl rfl


/-- The lexicographic position order is reflexive. -/
theorem Pos.le_refl (p : Pos) : p.le p := Or.inr ⟨rfl, Nat.le_refl _⟩

/-- The lexicographic position order is transitive. -/
theorem Pos.le_trans {p q r : Pos} (h1 : p.le q) (h2 : q.le r) : p.le r := by
  unfold Pos.le at *
  omega

/-- Consuming a rune never moves the end cursor backwards. -/
theorem Pos.le_advance (p : Pos) (c : Option Char) : p.le (p.advance c) := by
  unfold Pos.advance Pos.NextCharacter Pos.NextLine Pos.le
  split
  · left
    simp
  · right
    simp

/-- Consuming a rune keeps both cursor components at least 1. -/
theorem Pos.ge1_advance {p : Pos} (h : p.ge1) (c : Option Char) : (p.advance c).ge1 := by
  unfold Pos.ge1 at *
  unfold Pos.advance Pos.NextCharacter Pos.NextLine
  split
  · simp
  · simp
    omega

/-- ErrExt is reflexive. -/
theorem errExt_refl (s : Lexer) : ErrExt s s := ⟨[], by simp⟩

/-- ErrExt is transitive. -/
theorem errExt_trans {s t u : Lexer} (h1 : ErrExt s t) (h2 : ErrExt t u) : ErrExt s u := by
  obtain ⟨a, ha⟩ := h1
  obtain ⟨b, hb⟩ := h2
  exact ⟨a ++ b, by rw [hb, ha, List.append_assoc]⟩

/-- If an extension of the error history is empty, so was the history. -/
theorem errExt_nil {s t : Lexer} (h : ErrExt s t) (hn : t.errors = []) : s.errors = [] := by
  obtain ⟨a, ha⟩ := h
  rw [ha] at hn
  exact (List.append_eq_nil.mp hn).1

/-- Reporting an error leaves positions and tokens untouched, so the
position invariant carries over unchanged. -/
theorem posInv_raiseAt {s : Lexer} (p : Pos) (e : ErrKind) (h : posInv s) :
    posInv (raiseAt s p e) := h

/-- Consuming a rune preserves the position invariant: the end cursor
only advances. -/
theorem posInv_consume {s : Lexer} (h : posInv s) : posInv (consume s) := by
  obtain ⟨h1, h2, h3, h4, h5⟩ := h
  exact ⟨h1, Pos.ge1_advance h2 _, Pos.le_trans h3 (Pos.le_advance _ _), h4, h5⟩

/-- Discarding closes the position window upwards, preserving the
position invariant. -/
theorem posInv_discard {s : Lexer} (h : posInv s) : posInv s.discard := by
  obtain ⟨h1, h2, h3, h4, h5⟩ := h
  exact ⟨h2, h2, Pos.le_refl _,
    fun tok hm => ⟨Pos.le_trans (h4 tok hm).1 h3, (h4 tok hm).2⟩, h5⟩

/-- Emitting appends a token at the current start cursor, which is at
or after every previously emitted token, preserving the position
invariant. -/
theorem posInv_emitAux (syn : Bool) (t : token.Ty) {s : Lexer} (h : posInv s) :
    posInv (emitAux syn t s) := by
  obtain ⟨h1, h2, h3, h4, h5⟩ := h
  refine ⟨h2, h2, Pos.le_refl _, ?_, ?_⟩
  · intro tok hm
    replace hm : tok ∈ s.tokens ++ [(⟨t, s.tokenLiteral, s.tokenStart, syn⟩ : Token)] := hm
    rcases List.mem_append.mp hm with hm | hm
    · exact ⟨Pos.le_trans (h4 tok hm).1 h3, (h4 tok hm).2⟩
    · rw [List.mem_singleton] at hm
      subst hm
      exact ⟨h3, h1⟩
  · show List.Pairwise _ (s.tokens ++ [(⟨t, s.tokenLiteral, s.tokenStart, syn⟩ : Token)])
    refine List.pairwise_append.mpr ⟨h5, ?_, ?_⟩
    · simp
    · intro a ha b hb
      rw [List.mem_singleton] at hb
      subst hb
      exact (h4 a ha).1

/-- Closing the stream touches neither positions nor tokens. -/
theorem posInv_close {s : Lexer} (h : posInv s) : posInv (close s) := by
  unfold close
  split
  · exact h
  · exact h

/-- Emitting a non-synthetic token preserves synthetic cleanliness. -/
theorem cleanSyn_emitAux_false (t : token.Ty) {s : Lexer} (h : cleanSyn s) :
    cleanSyn (emitAux false t s) := by
  intro tok hm hsyn
  replace hm : tok ∈ s.tokens ++ [(⟨t, s.tokenLiteral, s.tokenStart, false⟩ : Token)] := hm
  rcases List.mem_append.mp hm with hm | hm
  · exact h tok hm hsyn
  · rw [List.mem_singleton] at hm
    subst hm
    exact absurd hsyn (by simp)

/-- Emitting a synthetic token preserves synthetic cleanliness
provided the pending literal buffer is empty. -/
theorem cleanSyn_emitAux_true (t : token.Ty) {s : Lexer} (h : cleanSyn s)
    (hl : s.tokenLiteral = "") : cleanSyn (emitAux true t s) := by
  intro tok hm hsyn
  replace hm : tok ∈ s.tokens ++ [(⟨t, s.tokenLiteral, s.tokenStart, true⟩ : Token)] := hm
  rcases List.mem_append.mp hm with hm | hm
  · exact h tok hm hsyn
  · rw [List.mem_singleton] at hm
    subst hm
    exact hl

/-- Closing the stream does not change the token history. -/
theorem cleanSyn_close {s : Lexer} (h : cleanSyn s) : cleanSyn (close s) := by
  unfold close
  split
  · exact h
  · exact h

/-- Closing the stream reports nothing. -/
theorem errExt_close (s : Lexer) : ErrExt s (close s) := by
  unfold close
  split
  · exact errExt_refl _
  · exact errExt_refl _

/-- Step is reflexive. -/
theorem step_refl (s : Lexer) : Step s s := ⟨errExt_refl s, id, id⟩

/-- Step is transitive. -/
theorem step_trans {s t u : Lexer} (h1 : Step s t) (h2 : Step t u) : Step s u :=
  ⟨errExt_trans h1.1 h2.1, fun h => h2.2.1 (h1.2.1 h), fun h => h2.2.2 (h1.2.2 h)⟩

theorem step_consume (s : Lexer) : Step s (consume s) :=
  ⟨⟨_, rfl⟩, posInv_consume, fun h => h⟩

theorem step_raiseAt (s : Lexer) (p : Pos) (e : ErrKind) : Step s (raiseAt s p e) :=
  ⟨⟨[⟨p, e⟩], rfl⟩, posInv_raiseAt p e, fun h => h⟩

theorem step_raise (s : Lexer) (e : ErrKind) : Step s (raise s e) :=
  step_raiseAt s s.tokenEnd e

theorem step_raiseAtTop (s : Lexer) (e : ErrKind) : Step s (raiseAtTop s e) :=
  step_raiseAt s s.tokenStart e

theorem step_emit (t : token.Ty) (s : Lexer) : Step s (emit t s) :=
  ⟨⟨[], by simp [emit, emitAux, Lexer.discard]⟩, posInv_emitAux false t, cleanSyn_emitAux_false t⟩

theorem step_discard (s : Lexer) : Step s s.discard :=
  ⟨errExt_refl _, posInv_discard, fun h => h⟩

theorem step_close (s : Lexer) : Step s (close s) :=
  ⟨errExt_close s, posInv_close, cleanSyn_close⟩

theorem step_stuckSet (s : Lexer) : Step s { s with stuck := true } :=
  ⟨errExt_refl _, fun h => h, fun h => h⟩

theorem step_consumeIdentifier : ∀ (fuel : Nat) (s : Lexer), Step s (consumeIdentifier fuel s) := by
  intro fuel
  induction fuel with
  | zero => intro s; exact step_stuckSet _
  | succ n ih =>
    intro s
    rw [consumeIdentifier]
    cases hc : s.current with
    | none => exact step_refl _
    | some c =>
      try dsimp only
      repeat' split
      all_goals first
        | exact step_refl _
        | exact step_trans (step_consume s) (ih _)

theorem step_consumeDigitsLoop (base : Nat) :
    ∀ (fuel : Nat) (s : Lexer), Step s (consumeDigitsLoop base fuel s) := by
  intro fuel
  induction fuel with
  | zero => intro s; exact step_stuckSet _
  | succ n ih =>
    intro s
    rw [consumeDigitsLoop]
    cases hc : s.current with
    | none => exact step_refl _
    | some c =>
      try dsimp only
      repeat' split
      all_goals first
        | exact step_refl _
        | exact step_trans (step_consume s) (ih _)

theorem step_consumeDigits (fuel base : Nat) (required : Bool) (s : Lexer) :
    Step s (consumeDigits fuel base required s) := by
  unfold consumeDigits
  try dsimp only
  repeat' split
  all_goals first
    | exact step_consumeDigitsLoop _ _ _
    | exact step_trans (step_raise _ _) (step_consumeDigitsLoop _ _ _)

theorem step_consumeHexLoop (pfx : String) (total : Nat) :
    ∀ (n : Nat) (acc : String) (s : Lexer), Step s (consumeHexLoop pfx total n acc s) := by
  intro n
  induction n with
  | zero =>
    intro acc s
    rw [consumeHexLoop]
    try dsimp only
    repeat' split
    all_goals first
      | exact step_refl _
      | exact step_raise s _
  | succ m ih =>
    intro acc s
    rw [consumeHexLoop]
    cases hc : s.current with
    | none => exact step_raise s _
    | some c =>
      try dsimp only
      repeat' split
      all_goals first
        | exact step_raise s _
        | exact step_trans (step_consume s) (ih _ _)

theorem step_consumeEscape (q : Char) (s : Lexer) : Step s (consumeEscape q s) := by
  unfold consumeEscape
  try dsimp only
  refine step_trans (step_consume s) ?_
  repeat' split
  all_goals first
    | exact step_consume _
    | exact step_trans (step_raise _ _) (step_consume _)
    | exact step_trans (step_consume _) (step_consumeHexLoop _ _ _ _ _)
    | exact step_trans (step_raise _ _)
        (step_trans (step_consume _) (step_consumeHexLoop _ _ _ _ _))

theorem step_consumeRune (q : Char) (s : Lexer) : Step s (consumeRune q s) := by
  unfold consumeRune
  split
  · exact step_consumeEscape q s
  · exact step_consume s

theorem step_lexRuneLoop : ∀ (fuel count : Nat) (s : Lexer),
    Step s (lexRuneLoop fuel count s).1 := by
  intro fuel
  induction fuel with
  | zero => intro count s; exact step_stuckSet _
  | succ n ih =>
    intro count s
    rw [lexRuneLoop]
    cases hc : s.current with
    | none => exact step_raise s _
    | some c =>
      try dsimp only
      repeat' split
      all_goals first
        | exact step_refl _
        | exact step_raise s _
        | exact step_trans (step_consumeRune _ s) (ih _ _)

theorem step_lexRune (fuel : Nat) (s : Lexer) : Step s (lexRune fuel s) := by
  unfold lexRune
  have h0 := step_trans (step_consume s) (step_lexRuneLoop fuel 0 (consume s))
  rcases hr : lexRuneLoop fuel 0 (consume s) with ⟨t, n⟩
  rw [hr] at h0
  simp only [hr]
  cases n with
  | none => exact h0
  | some count =>
    try dsimp only
    refine step_trans h0 ?_
    refine step_trans (step_consume t) ?_
    repeat' split
    all_goals first
      | exact step_emit _ _
      | exact step_trans (step_raiseAtTop _ _) (step_emit _ _)

theorem step_lexStringLoop : ∀ (fuel : Nat) (s : Lexer),
    Step s (lexStringLoop fuel s).1 := by
  intro fuel
  induction fuel with
  | zero => intro s; exact step_stuckSet _
  | succ n ih =>
    intro s
    rw [lexStringLoop]
    cases hc : s.current with
    | none => exact step_raise s _
    | some c =>
      try dsimp only
      repeat' split
      all_goals first
        | exact step_refl _
        | exact step_raise s _
        | exact step_trans (step_consumeRune _ s) (ih _)

theorem step_lexString (fuel : Nat) (s : Lexer) : Step s (lexString fuel s) := by
  unfold lexString
  have h0 := step_trans (step_consume s) (step_lexStringLoop fuel (consume s))
  rcases hr : lexStringLoop fuel (consume s) with ⟨t, b⟩
  rw [hr] at h0
  simp only [hr]
  cases b with
  | false => exact h0
  | true => exact step_trans h0 (step_trans (step_consume t) (step_emit _ _))

theorem step_lexExponent (fuel : Nat) (s : Lexer) : Step s (lexExponent fuel s) := by
  unfold lexExponent
  try dsimp only
  refine step_trans (step_consume s) ?_
  repeat' split
  all_goals first
    | exact step_trans (step_consume _)
        (step_trans (step_consumeDigits _ _ _ _) (step_emit _ _))
    | exact step_trans (step_consumeDigits _ _ _ _) (step_emit _ _)

theorem step_lexNumberAfterBase (fuel base : Nat) (cantBe0 : Bool) (s : Lexer) :
    Step s (lexNumberAfterBase fuel base cantBe0 s) := by
  unfold lexNumberAfterBase
  try dsimp only
  refine step_trans (step_consumeDigits fuel base cantBe0 s) ?_
  generalize consumeDigits fuel base cantBe0 s = t
  split
  · exact step_emit _ _
  · generalize hu : (if t.current = some '.'
        then consumeDigits fuel base true (consume t) else t) = u
    have hstep : Step t u := by
      rw [← hu]
      split
      · exact step_trans (step_consume t) (step_consumeDigits _ _ _ _)
      · exact step_refl t
    refine step_trans hstep ?_
    cases hc : u.current with
    | none => exact step_emit _ _
    | some c =>
      try dsimp only
      repeat' split
      all_goals first
        | exact step_lexExponent _ _
        | exact step_trans (step_raise _ _) (step_lexExponent _ _)
        | exact step_emit _ _

theorem step_lexNumber (fuel : Nat) (s : Lexer) : Step s (lexNumber fuel s) := by
  unfold lexNumber
  try dsimp only
  repeat' split
  all_goals first
    | exact step_lexNumberAfterBase _ _ _ _
    | exact step_trans (step_consume _) (step_lexNumberAfterBase _ _ _ _)
    | exact step_trans (step_consume _)
        (step_trans (step_consume _) (step_lexNumberAfterBase _ _ _ _))

theorem step_lexIdentifier (fuel : Nat) (s : Lexer) : Step s (lexIdentifier fuel s) :=
  step_trans (step_consumeIdentifier fuel s) (step_emit _ _)

theorem step_lexOperatorLoop : ∀ (fuel : Nat) (s : Lexer), Step s (lexOperatorLoop fuel s) := by
  intro fuel
  induction fuel with
  | zero => intro s; exact step_stuckSet _
  | succ n ih =>
    intro s
    rw [lexOperatorLoop]
    split
    · exact step_trans (step_consume s) (ih _)
    · exact step_refl _

theorem step_lexOperator (fuel : Nat) (s : Lexer) : Step s (lexOperator fuel s) :=
  step_trans (step_lexOperatorLoop fuel s) (step_emit _ _)

theorem step_lexCommentLoop : ∀ (fuel : Nat) (s : Lexer), Step s (lexCommentLoop fuel s) := by
  intro fuel
  induction fuel with
  | zero => intro s; exact step_stuckSet _
  | succ n ih =>
    intro s
    rw [lexCommentLoop]
    cases hc : s.current with
    | none => exact step_refl _
    | some c =>
      try dsimp only
      repeat' split
      all_goals first
        | exact step_refl _
        | exact step_trans (step_consume s) (ih _)

theorem step_lexComment (fuel : Nat) (s : Lexer) : Step s (lexComment fuel s) :=
  step_trans (step_lexCommentLoop fuel s) (step_emit _ _)

theorem step_discardWhitespaceLoop : ∀ (fuel : Nat) (s : Lexer),
    Step s (discardWhitespaceLoop fuel s) := by
  intro fuel
  induction fuel with
  | zero => intro s; exact step_stuckSet _
  | succ n ih =>
    intro s
    rw [discardWhitespaceLoop]
    cases hc : s.current with
    | none => exact step_refl _
    | some c =>
      try dsimp only
      repeat' split
      all_goals first
        | exact step_refl _
        | exact step_trans (step_consume s) (ih _)

theorem step_discardWhitespace (fuel : Nat) (s : Lexer) : Step s (discardWhitespace fuel s) :=
  step_trans (step_discardWhitespaceLoop fuel s) (step_discard _)

/-- Weakening of Step to the dispatch-level bundle, whose
synthetic-cleanliness component additionally assumes an empty pending
literal (needed only by the semicolon-insertion branch). -/
theorem step_cleanSyn_weaken {s t : Lexer} (h : Step s t) :
    ErrExt s t ∧ (posInv s → posInv t) ∧
      ((cleanSyn s ∧ s.tokenLiteral = "") → cleanSyn t) :=
  ⟨h.1, h.2.1, fun hc => h.2.2 hc.1⟩

/-- The dispatch-level bundle for the semicolon-insertion emission:
here the empty-buffer assumption is what keeps the synthetic token's
literal empty. -/
theorem step_asi (s : Lexer) :
    ErrExt s (emitAux true token.Semicolon s) ∧
      (posInv s → posInv (emitAux true token.Semicolon s)) ∧
      ((cleanSyn s ∧ s.tokenLiteral = "") → cleanSyn (emitAux true token.Semicolon s)) :=
  ⟨⟨[], by simp [emitAux, Lexer.discard]⟩, posInv_emitAux true _,
    fun hc => cleanSyn_emitAux_true _ hc.1 hc.2⟩

set_option maxHeartbeats 2000000 in
/-- Every arm of the dispatch switch appends errors only, preserves
the position invariant, and (given an empty pending buffer) preserves
synthetic cleanliness. -/
theorem step_lexDispatch (fuel : Nat) (c : Char) (s : Lexer) :
    ErrExt s (lexDispatch fuel c s) ∧
      (posInv s → posInv (lexDispatch fuel c s)) ∧
      ((cleanSyn s ∧ s.tokenLiteral = "") → cleanSyn (lexDispatch fuel c s)) := by
  unfold lexDispatch
  repeat' split
  all_goals first
    | exact step_cleanSyn_weaken (step_lexIdentifier _ _)
    | exact step_cleanSyn_weaken (step_trans (step_consume _) (step_emit _ _))
    | exact step_cleanSyn_weaken (step_trans (step_consume _)
        (step_trans (step_consumeIdentifier _ _)
          (step_trans (step_consume _) (step_emit _ _))))
    | exact step_cleanSyn_weaken (step_lexNumber _ _)
    | exact step_cleanSyn_weaken (step_lexRune _ _)
    | exact step_cleanSyn_weaken (step_lexString _ _)
    | exact step_cleanSyn_weaken (step_lexOperator _ _)
    | exact step_cleanSyn_weaken (step_lexComment _ _)
    | exact step_asi _
    | exact step_cleanSyn_weaken (step_discardWhitespace _ _)
    | exact step_cleanSyn_weaken (step_trans (step_raise _ _)
        (step_trans (step_consume _) (step_emit _ _)))

/-- The whole scan loop only appends to the error history. -/
theorem errExt_lex : ∀ (fuel : Nat) (s : Lexer), ErrExt s (lex fuel s) := by
  intro fuel
  induction fuel with
  | zero => intro s; exact errExt_refl _
  | succ n ih =>
    intro s
    rw [lex]
    split
    · exact errExt_refl _
    · cases hc : s.current with
      | none => exact errExt_close s
      | some c => exact errExt_trans (step_lexDispatch n c s).1 (ih _)

/-- The whole scan loop preserves the position invariant. -/
theorem posInv_lex : ∀ (fuel : Nat) {s : Lexer}, posInv s → posInv (lex fuel s) := by
  intro fuel
  induction fuel with
  | zero => intro s h; exact h
  | succ n ih =>
    intro s h
    rw [lex]
    split
    · exact h
    · cases hc : s.current with
      | none => exact posInv_close h
      | some c => exact ih ((step_lexDispatch n c s).2.1 h)

/-- Emission always ends with an empty pending literal buffer. -/
theorem lit_emitAux (syn : Bool) (t : token.Ty) (s : Lexer) :
    (emitAux syn t s).tokenLiteral = "" := rfl

/-- The exponent tail ends in an emission, hence with an empty buffer. -/
theorem lit_lexExponent (fuel : Nat) (s : Lexer) : (lexExponent fuel s).tokenLiteral = "" := rfl

/-- Every path of the number scan past the base ends in the deferred
emission, hence with an empty buffer. -/
theorem lit_lexNumberAfterBase (fuel base : Nat) (cantBe0 : Bool) (s : Lexer) :
    (lexNumberAfterBase fuel base cantBe0 s).tokenLiteral = "" := by
  unfold lexNumberAfterBase
  try dsimp only
  repeat' split
  all_goals first
    | rfl
    | exact lit_lexExponent _ _

/-- Every path of the number scan ends with an empty buffer. -/
theorem lit_lexNumber (fuel : Nat) (s : Lexer) : (lexNumber fuel s).tokenLiteral = "" := by
  unfold lexNumber
  try dsimp only
  repeat' split
  all_goals exact lit_lexNumberAfterBase _ _ _ _

/-- When the rune-literal loop aborts (no closing quote), it has
either run out of fuel or reported an unterminated-literal error. -/
theorem lexRuneLoop_none : ∀ (fuel count : Nat) (s : Lexer),
    (lexRuneLoop fuel count s).2 = none →
    (lexRuneLoop fuel count s).1.stuck = true ∨ (lexRuneLoop fuel count s).1.errors ≠ [] := by
  intro fuel
  induction fuel with
  | zero => intro count s _; left; rfl
  | succ n ih =>
    intro count s
    rw [lexRuneLoop]
    cases hc : s.current with
    | none =>
      intro _
      right
      simp [raise, raiseAt]
    | some c =>
      try dsimp only
      by_cases h1 : c = '\''
      · simp only [if_pos h1]
        intro h
        simp at h
      · simp only [if_neg h1]
        by_cases h2 : c = '\n'
        · simp only [if_pos h2]
          intro _
          right
          simp [raise, raiseAt]
        · simp only [if_neg h2]
          exact ih _ _

/-- When the string-literal loop aborts, it has either run out of
fuel or reported an unterminated-literal error. -/
theorem lexStringLoop_false : ∀ (fuel : Nat) (s : Lexer),
    (lexStringLoop fuel s).2 = false →
    (lexStringLoop fuel s).1.stuck = true ∨ (lexStringLoop fuel s).1.errors ≠ [] := by
  intro fuel
  induction fuel with
  | zero => intro s _; left; rfl
  | succ n ih =>
    intro s
    rw [lexStringLoop]
    cases hc : s.current with
    | none =>
      intro _
      right
      simp [raise, raiseAt]
    | some c =>
      try dsimp only
      by_cases h1 : c = '"'
      · simp only [if_pos h1]
        intro h
        simp at h
      · simp only [if_neg h1]
        by_cases h2 : c = '\n'
        · simp only [if_pos h2]
          intro _
          right
          simp [raise, raiseAt]
        · simp only [if_neg h2]
          exact ih _

/-- The rune scan ends stuck, with an error reported, or with an
empty pending buffer (the emitting path). -/
theorem lexRune_end (fuel : Nat) (s : Lexer) :
    (lexRune fuel s).stuck = true ∨ (lexRune fuel s).errors ≠ []
      ∨ (lexRune fuel s).tokenLiteral = "" := by
  unfold lexRune
  rcases hr : lexRuneLoop fuel 0 (consume s) with ⟨t, n⟩
  simp only [hr]
  cases n with
  | none =>
    have h := lexRuneLoop_none fuel 0 (consume s)
    rw [hr] at h
    rcases h rfl with h | h
    · exact Or.inl h
    · exact Or.inr (Or.inl h)
  | some count => exact Or.inr (Or.inr rfl)

/-- The string scan ends stuck, with an error reported, or with an
empty pending buffer (the emitting path). -/
theorem lexString_end (fuel : Nat) (s : Lexer) :
    (lexString fuel s).stuck = true ∨ (lexString fuel s).errors ≠ []
      ∨ (lexString fuel s).tokenLiteral = "" := by
  unfold lexString
  rcases hr : lexStringLoop fuel (consume s) with ⟨t, b⟩
  simp only [hr]
  cases b with
  | false =>
    have h := lexStringLoop_false fuel (consume s)
    rw [hr] at h
    rcases h rfl with h | h
    · exact Or.inl h
    · exact Or.inr (Or.inl h)
  | true => exact Or.inr (Or.inr rfl)

set_option maxHeartbeats 1000000 in
/-- Every arm of the dispatch switch returns to the loop top stuck,
with an error reported, or with an empty pending literal buffer. -/
theorem lexDispatch_end (fuel : Nat) (c : Char) (s : Lexer) :
    (lexDispatch fuel c s).stuck = true ∨ (lexDispatch fuel c s).errors ≠ []
      ∨ (lexDispatch fuel c s).tokenLiteral = "" := by
  unfold lexDispatch
  repeat' split
  all_goals first
    | exact Or.inr (Or.inr rfl)
    | exact Or.inr (Or.inr (lit_lexNumber _ _))
    | exact lexRune_end _ _
    | exact lexString_end _ _

/-- The scan loop preserves synthetic-token cleanliness on every run
whose error history ends empty: the pending buffer is empty at every
loop top unless the scan got stuck or an error was reported, and with
no errors the semicolon-insertion site can only emit an
empty-literal synthetic token. -/
theorem cleanSyn_lex : ∀ (fuel : Nat) (s : Lexer),
    (s.stuck = true ∨ s.errors ≠ [] ∨ s.tokenLiteral = "") → cleanSyn s →
    (lex fuel s).errors = [] → cleanSyn (lex fuel s) := by
  intro fuel
  induction fuel with
  | zero => intro s _ hc _; exact hc
  | succ n ih =>
    intro s hinv hc he
    rw [lex] at he ⊢
    by_cases hs : s.stuck = true
    · rw [if_pos hs] at he ⊢
      exact hc
    · rw [if_neg hs] at he ⊢
      revert he
      cases hcur : s.current with
      | none =>
        intro _
        exact cleanSyn_close hc
      | some c =>
        intro he
        have hd := step_lexDispatch n c s
        have he2 : (lexDispatch n c s).errors = [] := errExt_nil (errExt_lex n _) he
        have hs0 : s.errors = [] := errExt_nil hd.1 he2
        have hl : s.tokenLiteral = "" := by
          rcases hinv with h | h | h
          · exact absurd h hs
          · exact absurd hs0 h
          · exact h
        exact ih _ (lexDispatch_end n c s) (hd.2.2 ⟨hc, hl⟩) he

/-- C1 (amended): on every scan whose error history ends empty, every
synthetic token the engine emitted has an empty literal, and the
terminal end-of-stream token always has an empty literal.  (The
unamended claim fails when an unterminated literal aborts without
discarding its buffer; see the counterexample.) -/
theorem c1_amended_synthetic_literals (input : List Char) (fuel : Nat)
    (h : (run input fuel).errors = []) :
    (∀ tok ∈ (run input fuel).tokens, tok.synthetic = true → tok.literal = "") ∧
    (NextTokenAfterClose (run input fuel)).literal = "" := by
  constructor
  · have hstart : cleanSyn (LexStart input) := by
      intro tok hm
      replace hm : tok ∈ ([] : List Token) := hm
      exact absurd hm (List.not_mem_nil tok)
    exact cleanSyn_lex fuel (LexStart input) (Or.inr (Or.inr rfl)) hstart h
  · rfl

/-- Witness for the amended C1 on the error-free input "a". -/
theorem c1_amended_synthetic_literals_witness :
    (∀ tok ∈ (run ['a'] 6).tokens, tok.synthetic = true → tok.literal = "") ∧
    (NextTokenAfterClose (run ['a'] 6)).literal = "" :=
  c1_amended_synthetic_literals ['a'] 6 (by decide)

/-- The freshly started scanner satisfies the position invariant:
both cursors sit at the origin and no token has been emitted. -/
theorem posInv_LexStart (input : List Char) : posInv (LexStart input) := by
  refine ⟨⟨Nat.le_refl 1, Nat.le_refl 1⟩, ⟨Nat.le_refl 1, Nat.le_refl 1⟩,
    Pos.le_refl _, ?_, ?_⟩
  · intro tok hm
    replace hm : tok ∈ ([] : List Token) := hm
    exact absurd hm (List.not_mem_nil tok)
  · exact List.Pairwise.nil

/-- C5: on every scan whose error history ends empty, the start
positions of the emitted tokens are non-decreasing in emission order
under the lexicographic order on (line, column), and every emitted
token position has line and column at least 1 (the scan starts at the
origin (1,1)). -/
theorem c5_positions_monotone (input : List Char) (fuel : Nat)
    (h : (run input fuel).errors = []) :
    List.Pairwise (fun a b => Pos.le a.pos b.pos) (run input fuel).tokens ∧
    ∀ tok ∈ (run input fuel).tokens, 1 ≤ tok.pos.line ∧ 1 ≤ tok.pos.col := by
  have hp := posInv_lex fuel (posInv_LexStart input)
  exact ⟨hp.2.2.2.2, fun tok hm => (hp.2.2.2.1 tok hm).2⟩

/-- Witness for C5 on the error-free input "a". -/
theorem c5_positions_monotone_witness :
    List.Pairwise (fun a b => Pos.le a.pos b.pos) (run ['a'] 6).tokens :=
  (c5_positions_monotone ['a'] 6 (by decide)).1

/-- C2: after emitting any non-comment token the insert-semicolon
flag is true exactly when the emitted type is a literal or one of
right-paren, right-bracket, right-brace, break, continue, return;
consequently "a" followed by a newline emits an identifier, then a
synthetic semicolon, then only end-of-stream, while "a+" followed by
a newline emits no semicolon token at all. -/
theorem c2_asi_policy :
    (∀ (syn : Bool) (t : token.Ty) (s : Lexer), t ≠ token.Comment →
      ((emitAux syn t s).insertSemi = true ↔
        (t.IsLiteral = true ∨ t = token.RightParen ∨ t = token.RightBrack
          ∨ t = token.RightBrace ∨ t = token.Break ∨ t = token.Continue
          ∨ t = token.Return))) ∧
    (run ['a', '\n'] 8).tokens
      = [⟨token.Identifier, "a", ⟨1, 1⟩, false⟩, ⟨token.Semicolon, "", ⟨1, 2⟩, true⟩] ∧
    (run ['a', '\n'] 8).closed = true ∧
    NextTokenAfterClose (run ['a', '\n'] 8) = ⟨token.EOF, "", ⟨2, 1⟩, true⟩ ∧
    (∀ tok ∈ (run ['a', '+', '\n'] 8).tokens, tok.type ≠ token.Semicolon) := by
  refine ⟨?_, by decide, by decide, by decide, by decide⟩
  intro syn t s ht
  have h1 : (emitAux syn t s).insertSemi = t.InsertSemiAfter := by
    show (if t ≠ token.Comment then t.InsertSemiAfter else s.insertSemi) = t.InsertSemiAfter
    rw [if_pos ht]
  rw [h1]
  exact insertSemiAfter_iff t

/-- Witness for the policy half of C2 at the identifier type. -/
theorem c2_asi_policy_witness :
    (emitAux false token.Identifier (LexStart ['a'])).insertSemi = true ↔
      (token.Ty.IsLiteral token.Identifier = true ∨ token.Identifier = token.RightParen
        ∨ token.Identifier = token.RightBrack ∨ token.Identifier = token.RightBrace
        ∨ token.Identifier = token.Break ∨ token.Identifier = token.Continue
        ∨ token.Identifier = token.Return) :=
  c2_asi_policy.1 false token.Identifier (LexStart ['a']) (by decide)

/-- C3 (amended): the dispatch case for an underscore fires whenever
the current rune is an underscore, without inspecting the following
scalar ('_' is not a letter, so no earlier case intercepts it): it
consumes exactly the underscore and emits an underscore token.  On
"_a" this yields an underscore token followed by an identifier
token "a". -/
theorem c3_amended_underscore_dispatch :
    (∀ (s : Lexer) (fuel : Nat), s.stuck = false → s.current = some '_' →
      lex (fuel + 1) s = lex fuel (emit token.Underscore (consume s))) ∧
    (run ['_', 'a'] 10).tokens
      = [⟨token.Underscore, "_", ⟨1, 1⟩, false⟩, ⟨token.Identifier, "a", ⟨1, 2⟩, false⟩] := by
  constructor
  · intro s fuel hs hc
    rw [lex]
    rw [if_neg (by simp [hs])]
    rw [hc]
    have hl : isLetter '_' = false := by decide
    simp only [lexDispatch, hl, Bool.false_eq_true, if_false, if_pos rfl, if_true]
  · decide

/-- Witness for the dispatch half of the amended C3. -/
theorem c3_amended_underscore_dispatch_witness :
    lex 4 (LexStart ['_']) = lex 3 (emit token.Underscore (consume (LexStart ['_']))) :=
  c3_amended_underscore_dispatch.1 (LexStart ['_']) 3 rfl rfl

/-- C10: in escaped-identifier mode the engine consumes the opening
backslash, the maximal identifier run, and then unconditionally one
further scalar as the closing delimiter, whatever it is, emitting a
single identifier token containing all of them; on "\ab*" this is one
identifier token with literal "\ab*" and no error. -/
theorem c10_escaped_identifier :
    (∀ (s : Lexer) (fuel : Nat), s.stuck = false → s.current = some '\\' →
      lex (fuel + 1) s
        = lex fuel (emit token.Identifier (consume (consumeIdentifier fuel (consume s))))) ∧
    (run ['\\', 'a', 'b', '*'] 10).tokens
      = [⟨token.Identifier, "\\ab*", ⟨1, 1⟩, false⟩] ∧
    (run ['\\', 'a', 'b', '*'] 10).errors = [] := by
  refine ⟨?_, by decide, by decide⟩
  intro s fuel hs hc
  rw [lex]
  rw [if_neg (by simp [hs])]
  rw [hc]
  have hl : isLetter '\\' = false := by decide
  have hu : ('\\' = '_') = False := by simp
  simp only [lexDispatch, hl, Bool.false_eq_true, if_false, hu, if_pos rfl, if_true]

/-- Witness for the dispatch half of C10. -/
theorem c10_escaped_identifier_witness :
    lex 4 (LexStart ['\\', 'a'])
      = lex 3 (emit token.Identifier
          (consume (consumeIdentifier 3 (consume (LexStart ['\\', 'a']))))) :=
  c10_escaped_identifier.1 (LexStart ['\\', 'a']) 3 rfl rfl
